import Mathlib

/-!
Verification development for the citation graph construction, resolution and
deduplication engine (app/core/models.py, app/pipelines/dedup.py,
app/pipelines/references.py, app/graph/citations.py).

The ORM tables are embedded as lists of records; each batch operation of the
source becomes a pure function from a database value to a database value plus
a result.  Machine-level details that the properties below do not depend on
(SQLAlchemy sessions, autoincremented row ids, timestamps, the SHA-256
digest, file I/O for the raw-reference cache) are either dropped or kept
abstract as noted at each definition.
-/

namespace ResearchIntelligence

/-- A row of the `items` table (app/core/models.py, class Item).  Columns not
read by the merge/resolution/extraction code paths (tldr, abstract, dates,
paths, hashes, timestamps) are omitted. -/
structure Item where
  id : Nat
  title : Option String
  year : Option Nat
  bibtexKey : Option String
  sourceUrl : Option String
  status : String
  mergedIntoId : Option Nat
deriving DecidableEq, Repr

/-- A row of `item_ids` (class ItemId): an external identifier attached to an
item.  The schema carries UniqueConstraint("id_type", "id_value"), i.e. the
(type, value) pair is globally unique across rows. -/
structure ItemId where
  itemId : Nat
  idType : String
  idValue : String
deriving DecidableEq, Repr

/-- A row of `item_tags` (class ItemTag). -/
structure ItemTag where
  itemId : Nat
  tagId : Nat
  source : Option String
deriving DecidableEq, Repr

/-- A row of `collection_items` (class CollectionItem). -/
structure CollectionItem where
  collectionId : Nat
  itemId : Nat
deriving DecidableEq, Repr

/-- A row of `notes` (class Note); only the owning item matters here. -/
structure Note where
  itemId : Nat
  path : String
deriving DecidableEq, Repr

/-- A row of `citations` (class Citation).  `dstItemId = none` means the edge
is unresolved. -/
structure Citation where
  srcItemId : Nat
  dstItemId : Option Nat
  rawCite : Option String
  dstKey : Option String
  source : Option String
  rawCiteHash : Option String
deriving DecidableEq, Repr

/-- The database state seen by the engine: one list per table. -/
structure DB where
  items : List Item
  itemIds : List ItemId
  itemTags : List ItemTag
  collectionItems : List CollectionItem
  notes : List Note
  citations : List Citation
deriving DecidableEq, Repr

/-- `session.get(Item, id)`. -/
def itemById (db : DB) (i : Nat) : Option Item :=
  db.items.find? (fun it => it.id == i)

/-- `src.tag_links` relationship. -/
def tagLinksOf (db : DB) (i : Nat) : List ItemTag :=
  db.itemTags.filter (fun t => t.itemId == i)

/-- `src.collection_links` relationship. -/
def collLinksOf (db : DB) (i : Nat) : List CollectionItem :=
  db.collectionItems.filter (fun c => c.itemId == i)

/-- `src.notes` relationship. -/
def notesOf (db : DB) (i : Nat) : List Note :=
  db.notes.filter (fun n => n.itemId == i)

/-- `src.external_ids` relationship. -/
def extIdsOf (db : DB) (i : Nat) : List ItemId :=
  db.itemIds.filter (fun e => e.itemId == i)

/-- `src.citations_out` relationship (edges whose source is this item). -/
def citsOutOf (db : DB) (i : Nat) : List Citation :=
  db.citations.filter (fun c => c.srcItemId == i)

/-- `src.citations_in` relationship (edges whose destination is this item). -/
def citsInOf (db : DB) (i : Nat) : List Citation :=
  db.citations.filter (fun c => c.dstItemId == some i)

/-- The `moved` counts returned by merge_items. -/
structure MergeCounts where
  tags : Nat
  collections : Nat
  notes : Nat
  citationsOut : Nat
  citationsIn : Nat
  externalIds : Nat
deriving DecidableEq, Repr

/-- Return value of merge_items: the not-found error dict, the dry-run dict,
or the applied dict, each carrying the counts. -/
inductive MergeResult where
  | notFound
  | dryRunReport (srcId dstId : Nat) (moved : MergeCounts)
  | applied (srcId dstId : Nat) (moved : MergeCounts)
deriving DecidableEq, Repr

/-- Dry-run branch of merge_items (dedup.py lines 133-141): the counts are the
raw lengths of the source's relationship collections; nothing is written. -/
def mergeDryRunCounts (db : DB) (srcId : Nat) : MergeCounts :=
  { tags := (tagLinksOf db srcId).length
    collections := (collLinksOf db srcId).length
    notes := (notesOf db srcId).length
    citationsOut := (citsOutOf db srcId).length
    citationsIn := (citsInOf db srcId).length
    externalIds := (extIdsOf db srcId).length }

/-- Tag rows inserted by the apply branch: one new row on the destination for
every source tag link whose tag id is not already on the destination. -/
def mergeNewTags (db : DB) (srcId dstId : Nat) : List ItemTag :=
  (tagLinksOf db srcId).filter
    (fun t => !(((tagLinksOf db dstId).map (fun d => d.tagId)).contains t.tagId))

/-- Collection rows inserted by the apply branch. -/
def mergeNewColls (db : DB) (srcId dstId : Nat) : List CollectionItem :=
  (collLinksOf db srcId).filter
    (fun c => !(((collLinksOf db dstId).map (fun d => d.collectionId)).contains c.collectionId))

/-- External-identifier rows inserted by the apply branch: source pairs whose
(type, value) is not already present on the destination.  The source's own
rows are not deleted by the source code. -/
def mergeNewExt (db : DB) (srcId dstId : Nat) : List ItemId :=
  (extIdsOf db srcId).filter
    (fun e => !(((extIdsOf db dstId).map (fun d => (d.idType, d.idValue))).contains
      (e.idType, e.idValue)))

/-- Citation table after the two re-pointing loops of the apply branch:
first every outgoing edge of the source gets its source re-pointed to the
destination, then every still-incoming edge of the source gets its
destination re-pointed. -/
def mergeCitations (cits : List Citation) (srcId dstId : Nat) : List Citation :=
  (cits.map (fun c => if c.srcItemId = srcId then { c with srcItemId := dstId } else c)).map
    (fun c => if c.dstItemId = some srcId then { c with dstItemId := some dstId } else c)

/-- Apply branch of merge_items (dedup.py lines 143-184). -/
def mergeApply (db : DB) (srcId dstId : Nat) : MergeResult × DB :=
  let newTags := mergeNewTags db srcId dstId
  let newColls := mergeNewColls db srcId dstId
  let newExt := mergeNewExt db srcId dstId
  let cits1 := db.citations.map
    (fun c => if c.srcItemId = srcId then { c with srcItemId := dstId } else c)
  let counts : MergeCounts :=
    { tags := newTags.length
      collections := newColls.length
      notes := (db.notes.filter (fun n => n.itemId == srcId)).length
      citationsOut := (db.citations.filter (fun c => c.srcItemId == srcId)).length
      citationsIn := (cits1.filter (fun c => c.dstItemId == some srcId)).length
      externalIds := newExt.length }
  let db' : DB :=
    { items := db.items.map
        (fun it => if it.id = srcId then
          { it with status := "merged", mergedIntoId := some dstId } else it)
      itemIds := db.itemIds ++ newExt.map (fun e => ItemId.mk dstId e.idType e.idValue)
      itemTags := db.itemTags ++ newTags.map (fun t => ItemTag.mk dstId t.tagId t.source)
      collectionItems :=
        db.collectionItems ++ newColls.map (fun c => CollectionItem.mk c.collectionId dstId)
      notes := db.notes.map (fun n => if n.itemId = srcId then { n with itemId := dstId } else n)
      citations := mergeCitations db.citations srcId dstId }
  (MergeResult.applied srcId dstId counts, db')

/-- merge_items (app/pipelines/dedup.py, lines 112-184), as a pure function
returning the result together with the successor database state.
`session.flush()` is a persistence detail with no effect on the visible
record values and is not modelled. -/
def mergeItems (db : DB) (srcId dstId : Nat) (dryRun : Bool) : MergeResult × DB :=
  match itemById db srcId, itemById db dstId with
  | some _, some _ =>
    if dryRun then (MergeResult.dryRunReport srcId dstId (mergeDryRunCounts db srcId), db)
    else mergeApply db srcId dstId
  | _, _ => (MergeResult.notFound, db)

/-- The schema invariant of item_ids (UniqueConstraint uq_item_ids_type_value):
all (id_type, id_value) pairs are pairwise distinct. -/
def extPairsUnique (l : List ItemId) : Prop :=
  (l.map (fun e => (e.idType, e.idValue))).Nodup

instance (l : List ItemId) : Decidable (extPairsUnique l) := by
  unfold extPairsUnique; infer_instance

/-- No-self-citation invariant on a single edge: the destination, when
present, differs from the source. -/
def noSelfCite (c : Citation) : Prop :=
  c.dstItemId ≠ some c.srcItemId

instance (c : Citation) : Decidable (noSelfCite c) := by
  unfold noSelfCite; infer_instance

/-- ASCII whitespace as matched by the source's regexes' \s (Python also
matches some Unicode whitespace; none of the properties depend on it). -/
def isSpaceChar (c : Char) : Bool :=
  c == ' ' || c == '\t' || c == '\n' || c == '\r' || c == '\x0b' || c == '\x0c'

/-- Word character as matched by \w, restricted to ASCII. -/
def isWordChar (c : Char) : Bool :=
  c.isAlphanum || c == '_'

/-- One pass of re.sub(r"\s+", " ", ·): each maximal run of whitespace is
replaced by a single space.  The flag records whether the previous character
was part of a whitespace run. -/
def collapseAux : List Char → Bool → List Char
  | [], _ => []
  | c :: rest, inRun =>
    if isSpaceChar c then
      if inRun then collapseAux rest true else ' ' :: collapseAux rest true
    else c :: collapseAux rest false

/-- re.sub(r"\s+", " ", ·) on a character list. -/
def collapseSpaces (l : List Char) : List Char :=
  collapseAux l false

/-- str.strip() on a character list. -/
def stripChars (l : List Char) : List Char :=
  ((l.dropWhile isSpaceChar).reverse.dropWhile isSpaceChar).reverse

/-- _normalize_title (citations.py lines 16-21): lowercase, drop every
character that is neither a word character nor whitespace, collapse
whitespace runs to single spaces, strip. -/
def normTitle (t : String) : String :=
  let kept := (t.toList.map Char.toLower).filter (fun c => isWordChar c || isSpaceChar c)
  String.mk (stripChars (collapseSpaces kept))

/-- str.split() split step: words are maximal runs of non-whitespace; the
accumulator holds the current word reversed. -/
def splitWordsAux : List Char → List Char → List String
  | [], acc => if acc.isEmpty then [] else [String.mk acc.reverse]
  | c :: rest, acc =>
    if isSpaceChar c then
      if acc.isEmpty then splitWordsAux rest []
      else String.mk acc.reverse :: splitWordsAux rest []
    else splitWordsAux rest (c :: acc)

/-- str.split() (whitespace words, empties dropped). -/
def splitWords (s : String) : List String :=
  splitWordsAux s.toList []

/-- The word set of a title: set(a.split()), as a duplicate-free list. -/
def wordSet (s : String) : List String :=
  (splitWords s).dedup

/-- _title_similarity (citations.py lines 24-32): word-set Jaccard
similarity |A ∩ B| / |A ∪ B| as an exact rational (built with Rat.divInt,
which is the fraction m/n), 0 when either word set is empty. -/
def titleSimilarity (a b : String) : ℚ :=
  let wa := wordSet a
  let wb := wordSet b
  if wa = [] ∨ wb = [] then 0
  else Rat.divInt ((wa.inter wb).length : ℤ) ((wa.union wb).length : ℤ)

/-- One dict assignment d[k] = v on an insertion-ordered association list:
an existing binding is overwritten in place, a new key is appended. -/
def dictInsert (k : String) (v : Item) : List (String × Item) → List (String × Item)
  | [] => [(k, v)]
  | (k', v') :: rest =>
    if k' = k then (k', v) :: rest else (k', v') :: dictInsert k v rest

/-- The resolver's prebuilt title index (citations.py lines 203-208): for
every item with a non-empty title, bind its normalized title to the item;
later items overwrite earlier bindings of the same normalized title. -/
def titleIndex (db : DB) : List (String × Item) :=
  db.items.foldl
    (fun idx it =>
      match it.title with
      | some t => if t = "" then idx else dictInsert (normTitle t) it idx
      | none => idx)
    []

/-- Dict lookup on the association list built by dictInsert (keys unique). -/
def dictFind (idx : List (String × Item)) (k : String) : Option Item :=
  (idx.find? (fun p => p.1 == k)).map (fun p => p.2)

/-- Loop body of the fuzzy-fallback scan: update the running best only on
strict improvement (`if sim > best_sim`). -/
def fuzzyStep (guess : String) (acc : ℚ × Option Item) (p : String × Item) :
    ℚ × Option Item :=
  let sim := titleSimilarity guess p.1
  if acc.1 < sim then (sim, some p.2) else acc

/-- The fuzzy-fallback scan (citations.py lines 304-311): fold over the title
index keeping the best similarity seen so far (initially 0.0) and the item
that achieved it. -/
def fuzzyScan (guess : String) (idx : List (String × Item)) : ℚ × Option Item :=
  idx.foldl (fuzzyStep guess) (0, none)

/-- The fuzzy-fallback acceptance (citations.py lines 312-314): the best
candidate resolves the edge only if its similarity is strictly greater than
0.85, written as the exact rational 17/20. -/
def fuzzyResolve (guess : String) (idx : List (String × Item)) : Option Item :=
  let r := fuzzyScan guess idx
  if Rat.divInt 17 20 < r.1 then r.2 else none

/-- str.rstrip(".") — trailing dots removed. -/
def dropTrailingDots (s : String) : String :=
  String.mk ((s.toList.reverse.dropWhile (fun c => c == '.')).reverse)

/-- The identifiers that resolve_citations parses out of an edge's raw
mention text with DOI_RE, ARXIV_RE, ACL_ID_RE / ACL_ID_NEW_RE, URL_RE and
TITLE_GUESS_RE (citations.py lines 219-233 and 295).  The regular-expression
layer itself is kept abstract: a ParsedIds value stands for the result of
running those regexes on raw_cite, and the resolution pass takes the parsing
function as a parameter. -/
structure ParsedIds where
  doi : Option String
  arxiv : Option String
  acl : Option String
  url : Option String
  titleGuess : Option String
deriving DecidableEq, Repr

/-- No identifiers parsed (raw_cite absent or empty: the parse block is
guarded by `if cit.raw_cite`). -/
def emptyIds : ParsedIds :=
  ⟨none, none, none, none, none⟩

/-- `select(Item).where(Item.bibtex_key == k)` — bibtex_key is unique in the
schema, so the first match is the only one. -/
def findByBibtex (db : DB) (k : String) : Option Item :=
  db.items.find? (fun it => it.bibtexKey == some k)

/-- `select(ItemId).where(id_type == t, id_value == v)` followed by
`link.item` — the (type, value) pair is unique in the schema. -/
def findByExtId (db : DB) (t v : String) : Option Item :=
  (db.itemIds.find? (fun e => e.idType == t && e.idValue == v)).bind
    (fun e => itemById db e.itemId)

/-- `select(Item).where(Item.source_url == u)`. -/
def findByUrl (db : DB) (u : String) : Option Item :=
  db.items.find? (fun it => it.sourceUrl == some u)

/-- The strategy chain of resolve_citations for one unresolved edge
(citations.py lines 235-314), in source order: 1. primary key (bibtex_key);
2. DOI from the mention, then the primary key tried as a DOI; 3. arXiv from
the mention, then the primary key tried as an arXiv id; 4. ACL id; 5. URL
against source_url; 6. exact normalized-title lookup, else the fuzzy
fallback.  Each later strategy runs only when no item has been found yet
(the source's additional `not method` guards on the primary-key-as-DOI and
primary-key-as-arXiv attempts are redundant: method is only ever set
together with item).  Empty strings are falsy in the source's truthiness
guards, hence the explicit "" tests. -/
def resolveCandidate (db : DB) (cit : Citation) (ids : ParsedIds) :
    Option (Item × String) :=
  let s1 : Option (Item × String) :=
    match cit.dstKey with
    | some k => if k = "" then none else (findByBibtex db k).map (fun it => (it, "bibtex_key"))
    | none => none
  let s2 : Option (Item × String) :=
    match ids.doi with
    | some d => (findByExtId db "doi" d).map (fun it => (it, "doi"))
    | none => none
  let s2b : Option (Item × String) :=
    match cit.dstKey with
    | some k => if k = "" then none else (findByExtId db "doi" k).map (fun it => (it, "doi"))
    | none => none
  let s3 : Option (Item × String) :=
    match ids.arxiv with
    | some a => (findByExtId db "arxiv" a).map (fun it => (it, "arxiv"))
    | none => none
  let s3b : Option (Item × String) :=
    match cit.dstKey with
    | some k => if k = "" then none else (findByExtId db "arxiv" k).map (fun it => (it, "arxiv"))
    | none => none
  let s4 : Option (Item × String) :=
    match ids.acl with
    | some a => (findByExtId db "acl" a).map (fun it => (it, "acl"))
    | none => none
  let s5 : Option (Item × String) :=
    match ids.url with
    | some u => (findByUrl db u).map (fun it => (it, "url"))
    | none => none
  let s6 : Option (Item × String) :=
    match cit.rawCite with
    | some rc =>
      if rc = "" then none
      else
        match ids.titleGuess with
        | some tg =>
          let guess := normTitle (dropTrailingDots tg)
          if guess = "" then none
          else
            match dictFind (titleIndex db) guess with
            | some it => some (it, "title")
            | none => (fuzzyResolve guess (titleIndex db)).map (fun it => (it, "title"))
        | none => none
    | none => none
  s1.orElse fun _ => s2.orElse fun _ => s2b.orElse fun _ => s3.orElse fun _ =>
    s3b.orElse fun _ => s4.orElse fun _ => s5.orElse fun _ => s6

/-- The final self-citation guard (citations.py lines 316-322): a found
candidate equal to the edge's own source leaves the edge unresolved. -/
def resolveDst (db : DB) (cit : Citation) (ids : ParsedIds) : Option Nat :=
  match resolveCandidate db cit ids with
  | some r => if r.1.id = cit.srcItemId then none else some r.1.id
  | none => none

/-- The parse block guard: identifiers are extracted only when raw_cite is
present and non-empty. -/
def parsedFor (parse : String → ParsedIds) (cit : Citation) : ParsedIds :=
  match cit.rawCite with
  | some rc => if rc = "" then emptyIds else parse rc
  | none => emptyIds

/-- One edge of the resolution sweep: fill in the destination when the
strategy chain plus self-guard produce one. -/
def resolveStep (db : DB) (parse : String → ParsedIds) (cit : Citation) : Citation :=
  match resolveDst db cit (parsedFor parse cit) with
  | some d => { cit with dstItemId := some d }
  | none => cit

/-- resolve_citations (citations.py lines 184-325): every edge whose
destination is null is put through the strategy chain; lookups read the item
and identifier tables, which the sweep does not modify. -/
def resolveCitationsPass (db : DB) (parse : String → ParsedIds) : DB :=
  { db with
    citations := db.citations.map
      (fun c => if c.dstItemId = none then resolveStep db parse c else c) }

/-- A parsed reference entry as produced by _parse_entry (references.py
lines 111-153): the raw mention plus the identifiers found in it.  Only the
fields read by extract_references_for_item are kept (doi, arxiv, acl_id for
the best-guess key; the remaining identifier fields of the entry dict are
never read downstream). -/
structure RefEntry where
  raw : String
  doi : Option String
  arxiv : Option String
  aclId : Option String
deriving DecidableEq, Repr

/-- Best-guess destination key with fixed priority DOI > arXiv > ACL id
(references.py line 211).  The identifier strings come from regex matches
and are therefore never empty, so Python's `or` chain is plain first-some. -/
def entryDstKey (e : RefEntry) : Option String :=
  (e.doi.orElse fun _ => e.arxiv).orElse fun _ => e.aclId

/-- The normalization inside _compute_cite_hash (references.py lines 48-51):
strip, lowercase, collapse whitespace runs to single spaces. -/
def normalizeCite (s : String) : String :=
  String.mk (collapseSpaces ((stripChars s.toList).map Char.toLower))

/-- _compute_cite_hash: the SHA-256 hex digest of the normalized mention.
The digest itself is kept abstract as a function parameter; every property
below holds for an arbitrary digest function. -/
def citeHash (digest : String → String) (raw : String) : String :=
  digest (normalizeCite raw)

/-- The existing-hash query of extract_references_for_item (lines 192-202):
the non-null raw_cite_hash values of the edges owned by this source. -/
def existingHashes (cits : List Citation) (src : Nat) : List String :=
  cits.filterMap (fun c => if c.srcItemId = src then c.rawCiteHash else none)

/-- The entry loop of extract_references_for_item (lines 204-221): an entry
whose hash is already known for this source is dropped; otherwise a new edge
is created (raw mention truncated to 500 characters, best-guess key,
provenance "pdf") and the hash is added to the known set. -/
def extractLoop (digest : String → String) (src : Nat) :
    List String → List RefEntry → List Citation
  | _, [] => []
  | existing, e :: rest =>
    let h := citeHash digest e.raw
    if h ∈ existing then extractLoop digest src existing rest
    else
      (⟨src, none, some (String.mk (e.raw.toList.take 500)), entryDstKey e,
        some "pdf", some h⟩ : Citation) ::
        extractLoop digest src (h :: existing) rest

/-- extract_references_for_item (references.py lines 156-224) from the point
where the entry list is known: the parsed entries of the item's (unchanged)
text are appended to the citation table under hash dedup; the result pairs
the new table with the number of edges created.  Reading the text and the
raw-reference file cache are I/O and not modelled; the text-to-entries stage
is deterministic, so an unchanged text yields the same entry list. -/
def extractForItem (digest : String → String) (cits : List Citation) (src : Nat)
    (entries : List RefEntry) : List Citation × Nat :=
  let newCits := extractLoop digest src (existingHashes cits src) entries
  (cits ++ newCits, newCits.length)

/-- Two raw mentions of the same reference differing only in case and
whitespace: their normalized forms coincide. -/
def sampleEntries : List RefEntry :=
  [⟨"Vaswani et al. Attention is all you need. arXiv:1706.03762",
      none, some "1706.03762", none⟩,
   ⟨"  Vaswani   ET AL. Attention is all you need. arXiv:1706.03762",
      none, some "1706.03762", none⟩]

/-- ASCII uppercase letter, the regex class [A-Z]. -/
def isAsciiUpper (c : Char) : Bool :=
  'A' ≤ c && c ≤ 'Z'

/-- The pattern list is a prefix of the character list. -/
def listHasPrefix : List Char → List Char → Bool
  | _, [] => true
  | [], _ :: _ => false
  | c :: cs, p :: ps => c == p && listHasPrefix cs ps

/-- The pattern list occurs as a contiguous sublist. -/
def listContainsSub : List Char → List Char → Bool
  | [], pat => pat.isEmpty
  | c :: rest, pat => listHasPrefix (c :: rest) pat || listContainsSub rest pat

/-- One attempt of the second tail-acceptance alternative \b1\.\s+[A-Z]
(references.py line 76) at the current position: a word boundary before the
literal "1." (prev is the preceding character), then at least one whitespace
character, then an ASCII capital. -/
def oneDotCapAt (prev : Option Char) (cs : List Char) : Bool :=
  match cs with
  | '1' :: '.' :: rest =>
    (match prev with
     | none => true
     | some p => !(isWordChar p)) &&
      (!(rest.takeWhile isSpaceChar).isEmpty &&
        (match rest.dropWhile isSpaceChar with
         | c :: _ => isAsciiUpper c
         | [] => false))
  | _ => false

/-- re.search of \b1\.\s+[A-Z]: try the pattern at every position. -/
def scanOneDot : Option Char → List Char → Bool
  | _, [] => false
  | prev, c :: rest => oneDotCapAt prev (c :: rest) || scanOneDot (some c) rest

/-- The tail-acceptance test re.search(r"\[1\]|\b1\.\s+[A-Z]", tail)
(references.py line 76): the literal substring "[1]", or a word-bounded
"1." followed by whitespace and a capital — anywhere in the tail. -/
def codeTailAccepts (s : String) : Bool :=
  listContainsSub s.toList ['[', '1', ']'] || scanOneDot none s.toList

/-- The heading alternatives of REFS_HEADING_RE (references.py lines 17-21)
in regex order, lowercased for the IGNORECASE comparison.  (Python's
IGNORECASE also folds non-ASCII letters such as É; the model folds ASCII
only, which no property here depends on.) -/
def headingKeywords : List (List Char) :=
  ["references".toList, "bibliography".toList, "references".toList,
    "bibliography".toList, "references and notes".toList, "参考文献".toList,
    "références".toList, "literatur".toList]

/-- Case-insensitive (ASCII) prefix test. -/
def ciHasPrefix (cs kw : List Char) : Bool :=
  listHasPrefix (cs.map Char.toLower) kw

/-- Index of the last newline in a character list. -/
def lastNewlineIdx (l : List Char) : Option Nat :=
  match l.reverse.findIdx? (fun c => c == '\n') with
  | some j => some (l.length - 1 - j)
  | none => none

/-- Try one heading keyword at the start of body: the keyword must match
case-insensitively and be followed by \s*\n — whitespace whose maximal run
contains a newline; the greedy regex ends the match after the last newline
of that run.  Returns the number of characters consumed from body. -/
def headingTryKw (body : List Char) (kw : List Char) : Option Nat :=
  if ciHasPrefix body kw then
    let run := (body.drop kw.length).takeWhile isSpaceChar
    match lastNewlineIdx run with
    | some i => some (kw.length + i + 1)
    | none => none
  else none

/-- Match the part of REFS_HEADING_RE after its leading newline: \s* (the
keywords begin with non-whitespace, so the skip is the maximal whitespace
run), then the first keyword alternative that matches and is terminated by
\s*\n.  Returns the number of characters consumed. -/
def headingAfterNl (rest : List Char) : Option Nat :=
  let ws := rest.takeWhile isSpaceChar
  (headingKeywords.findSome? (fun kw => headingTryKw (rest.drop ws.length) kw)).map
    (fun n => ws.length + n)

/-- re.search of REFS_HEADING_RE: the leftmost newline at which the heading
pattern matches; returns match.end() as a character index. -/
def scanHeadingEnd : List Char → Nat → Option Nat
  | [], _ => none
  | c :: rest, pos =>
    if c == '\n' then
      match headingAfterNl rest with
      | some n => some (pos + 1 + n)
      | none => scanHeadingEnd rest (pos + 1)
    else scanHeadingEnd rest (pos + 1)

/-- End position of the references-heading match, if any. -/
def refsHeadingEnd (s : String) : Option Nat :=
  scanHeadingEnd s.toList 0

/-- Whether REFS_HEADING_RE matches the text. -/
def headingFound (s : String) : Bool :=
  (refsHeadingEnd s).isSome

/-- The last 20% of the text: text[int(len(text) * 0.8):].  Python truncates
the float product; the model uses the exact ⌊4n/5⌋. -/
def tailOf (s : String) : String :=
  String.mk (s.toList.drop ((4 * s.toList.length) / 5))

/-- raw_section as computed by extract_references_from_text (references.py
lines 66-80): everything after the heading match, or — when no heading is
found — the final 20% of the text if it passes the tail-acceptance test,
else the empty string. -/
def rawSectionOf (s : String) : String :=
  match refsHeadingEnd s with
  | some e => String.mk (s.toList.drop e)
  | none => if codeTailAccepts (tailOf s) then tailOf s else ""

/-- Generic splitter in the style of re.split with one capture group: scan
left to right for non-overlapping matches of the matcher (which receives
whether we are at the start of the string and returns the captured group and
the remainder after the match); returns the text before the first match and
the (capture, following-segment) pairs.  Every matcher used below consumes
at least one character, so the fuel (length + 1) is never exhausted. -/
def splitScan (m : Bool → List Char → Option (String × List Char)) :
    Nat → Bool → List Char → List Char → String × List (String × String)
  | 0, _, _, acc => (String.mk acc.reverse, [])
  | fuel + 1, atStart, cs, acc =>
    match m atStart cs with
    | some (capture, rest) =>
      let next := splitScan m fuel false rest []
      (String.mk acc.reverse, (capture, next.1) :: next.2)
    | none =>
      match cs with
      | [] => (String.mk acc.reverse, [])
      | c :: rest => splitScan m fuel false rest (c :: acc)

/-- Body of REF_SPLIT_BRACKET after its (?:^|\n) anchor:
\s*\[(\d+)\]\s* — leading whitespace, a bracketed number (the capture), and
trailing whitespace, all consumed. -/
def bracketTryBody (body : List Char) : Option (String × List Char) :=
  match body.dropWhile isSpaceChar with
  | '[' :: r1 =>
    let digits := r1.takeWhile Char.isDigit
    if digits.isEmpty then none
    else
      match r1.drop digits.length with
      | ']' :: r2 => some (String.mk digits, r2.dropWhile isSpaceChar)
      | _ => none
  | _ => none

/-- Body of REF_SPLIT_NUMBERED_DOT after its anchor:
\s*(\d+)\.\s+(?=[A-Z]) — the lookahead capital is not consumed. -/
def numDotTryBody (body : List Char) : Option (String × List Char) :=
  let b1 := body.dropWhile isSpaceChar
  let digits := b1.takeWhile Char.isDigit
  if digits.isEmpty then none
  else
    match b1.drop digits.length with
    | '.' :: r2 =>
      if (r2.takeWhile isSpaceChar).isEmpty then none
      else
        match r2.dropWhile isSpaceChar with
        | c :: restAll => if isAsciiUpper c then some (String.mk digits, c :: restAll) else none
        | [] => none
    | _ => none

/-- The (?:^|\n) anchor: at the start of the string the pattern may begin
immediately; elsewhere it must consume a newline first. -/
def anchorWrap (tryBody : List Char → Option (String × List Char))
    (atStart : Bool) (cs : List Char) : Option (String × List Char) :=
  if atStart then
    match tryBody cs with
    | some r => some r
    | none =>
      match cs with
      | '\n' :: rest => tryBody rest
      | _ => none
  else
    match cs with
    | '\n' :: rest => tryBody rest
    | _ => none

/-- re.split on REF_SPLIT_BRACKET. -/
def bracketSplit (s : String) : String × List (String × String) :=
  splitScan (anchorWrap bracketTryBody) (s.toList.length + 1) true s.toList []

/-- re.split on REF_SPLIT_NUMBERED_DOT. -/
def numDotSplit (s : String) : String × List (String × String) :=
  splitScan (anchorWrap numDotTryBody) (s.toList.length + 1) true s.toList []

/-- re.split on REF_SPLIT_NEWLINE (\n{2,}): cut at every maximal run of at
least two newlines. -/
def nlSplitAux : Nat → List Char → List Char → List String
  | 0, _, acc => [String.mk acc.reverse]
  | _ + 1, [], acc => [String.mk acc.reverse]
  | fuel + 1, '\n' :: '\n' :: rest, acc =>
    String.mk acc.reverse :: nlSplitAux fuel (rest.dropWhile (fun c => c == '\n')) []
  | fuel + 1, c :: rest, acc => nlSplitAux fuel rest (c :: acc)

/-- Split a string at double-newline runs. -/
def nlSplit (s : String) : List String :=
  nlSplitAux (s.toList.length + 1) s.toList []

/-- str.strip(). -/
def strip (s : String) : String :=
  String.mk (stripChars s.toList)

/-- The per-match segments of a bracket or numbered-dot split, stripped,
empties dropped (references.py lines 87-100: parts[i+1].strip() for the odd
positions, kept when non-empty). -/
def chunksFromParts (parts : List (String × String)) : List String :=
  parts.filterMap (fun p => let r := strip p.2; if r = "" then none else some r)

/-- The raw entry chunks of extract_references_from_text (references.py
lines 54-108): locate the reference section, then split it with, in
priority order, bracket markers (used when the split produced at least one
match, i.e. len(parts) > 2), numbered-dot markers, and finally blank-line
paragraphs of more than 20 characters.  Each chunk is subsequently fed to
_parse_entry, which maps chunks 1-1 to entry dicts, so the entry list is
empty exactly when the chunk list is. -/
def refChunks (text : String) : List String :=
  let rawSection := rawSectionOf text
  if rawSection = "" then []
  else
    let bp := bracketSplit rawSection
    if 1 ≤ bp.2.length then chunksFromParts bp.2
    else
      let np := numDotSplit rawSection
      if 1 ≤ np.2.length then chunksFromParts np.2
      else
        (nlSplit rawSection).filterMap
          (fun ch => let c := strip ch; if 20 < c.toList.length then some c else none)

/-- Position test for a bracketed numeral [n]. -/
def bracketNumAt : List Char → Bool
  | '[' :: r =>
    let digits := r.takeWhile Char.isDigit
    !digits.isEmpty &&
      (match r.drop digits.length with
       | ']' :: _ => true
       | _ => false)
  | _ => false

/-- Whether the text contains a bracketed numeral anywhere. -/
def containsBracketNumeral : List Char → Bool
  | [] => false
  | c :: rest => bracketNumAt (c :: rest) || containsBracketNumeral rest

/-- Whether some line starts with the pattern "1. ". -/
def lineStartOneDotAux : Bool → List Char → Bool
  | _, [] => false
  | atStart, c :: rest =>
    (atStart && listHasPrefix (c :: rest) ['1', '.', ' ']) ||
      lineStartOneDotAux (c == '\n') rest

/-- Modelled from the spec's words, for comparison with codeTailAccepts:
"accept this tail only if it visibly resembles a reference list (contains a
bracketed numeral or a \"1. \" pattern at line start)". -/
def specTailAccepts (s : String) : Bool :=
  containsBracketNumeral s.toList || lineStartOneDotAux true s.toList

/-- Heading-free text whose final 20% is "x [2] B.C": it contains the
bracketed numeral [2] but not the literal [1] and no "1."-capital pattern. -/
def c8TextBracket2 : String :=
  "aaaaaaaaaaaaaaaaaaaaaaaaaaaaaaaaaaaax [2] B.C"

/-- Heading-free text whose final 20% is "z 1. Apple pies are good.": the
"1." sits mid-line (after a word boundary), not at line start, and there is
no bracketed numeral. -/
def c8TextMidline : String :=
  "aaaaaaaaaaaaaaaaaaaaaaaaaaaaaaaaaaaaaaaaaaaaaaaaaaaaaaaaaaaaaaaaaaaaaaaaaaaaaaaaaaaaaaaaaaaaaaaaaaz 1. Apple pies are good."

/-- The item projection _item_info of get_citation_subgraph
(citations.py lines 344-345). -/
structure ItemInfo where
  id : Nat
  title : Option String
  year : Option Nat
  bibtexKey : Option String
deriving DecidableEq, Repr

/-- An unresolved outgoing mention as reported by get_citation_subgraph
(citations.py lines 363-374): raw text truncated to 200 characters, the
best-guess key and the provenance tag.  The row's autoincremented id and the
parsed JSON context payload are presentation details not modelled. -/
structure UnresolvedRef where
  rawCite : String
  dstKey : Option String
  source : Option String
deriving DecidableEq, Repr

/-- An edge of the reported subgraph. -/
structure EdgePair where
  src : Nat
  dst : Nat
deriving DecidableEq, Repr

/-- The result dict of get_citation_subgraph. -/
structure Subgraph where
  center : Option ItemInfo
  cites : List ItemInfo
  citedBy : List ItemInfo
  unresolvedRefs : List UnresolvedRef
  edges : List EdgePair
deriving DecidableEq, Repr

/-- Accumulator of the subgraph construction: the growing cites / cited_by /
unresolved_refs / edges lists plus the seen_items set (as a list). -/
structure SubAcc where
  cites : List ItemInfo
  citedBy : List ItemInfo
  unresolved : List UnresolvedRef
  edges : List EdgePair
  seen : List Nat
deriving DecidableEq, Repr

/-- _item_info. -/
def itemInfoOf (it : Item) : ItemInfo :=
  ⟨it.id, it.title, it.year, it.bibtexKey⟩

/-- One outgoing citation of the center (citations.py lines 355-374):
resolved destinations that exist are appended to cites/edges/seen; a null
destination contributes an unresolved_refs record. -/
def subOutStep (db : DB) (itemId : Nat) (acc : SubAcc) (c : Citation) : SubAcc :=
  match c.dstItemId with
  | some d =>
    match itemById db d with
    | some dst =>
      { acc with
        cites := acc.cites ++ [itemInfoOf dst]
        edges := acc.edges ++ [⟨itemId, dst.id⟩]
        seen := acc.seen ++ [dst.id] }
    | none => acc
  | none =>
    { acc with
      unresolved := acc.unresolved ++
        [⟨String.mk ((c.rawCite.getD "").toList.take 200), c.dstKey, c.source⟩] }

/-- One incoming citation of the center (citations.py lines 377-384). -/
def subInStep (db : DB) (itemId : Nat) (acc : SubAcc) (c : Citation) : SubAcc :=
  match itemById db c.srcItemId with
  | some src =>
    { acc with
      citedBy := acc.citedBy ++ [itemInfoOf src]
      edges := acc.edges ++ [⟨src.id, itemId⟩]
      seen := acc.seen ++ [src.id] }
  | none => acc

/-- One resolved outgoing citation of a depth-2 hop node (citations.py
lines 395-409): skipped when the destination was already seen. -/
def hopOutStep (db : DB) (hopId : Nat) (acc : SubAcc) (c : Citation) : SubAcc :=
  match c.dstItemId with
  | some d =>
    if acc.seen.contains d then acc
    else
      match itemById db d with
      | some dst =>
        { acc with
          cites := acc.cites ++ [itemInfoOf dst]
          edges := acc.edges ++ [⟨hopId, dst.id⟩]
          seen := acc.seen ++ [dst.id] }
      | none => acc
  | none => acc

/-- One incoming citation of a depth-2 hop node (citations.py
lines 411-419). -/
def hopInStep (db : DB) (hopId : Nat) (acc : SubAcc) (c : Citation) : SubAcc :=
  if acc.seen.contains c.srcItemId then acc
  else
    match itemById db c.srcItemId with
    | some src =>
      { acc with
        citedBy := acc.citedBy ++ [itemInfoOf src]
        edges := acc.edges ++ [⟨src.id, hopId⟩]
        seen := acc.seen ++ [src.id] }
    | none => acc

/-- Expansion of one depth-2 hop node: its resolved outgoing citations, then
its incoming citations. -/
def hopStep (db : DB) (acc : SubAcc) (hopId : Nat) : SubAcc :=
  let accOut :=
    (db.citations.filter (fun c => c.srcItemId == hopId && c.dstItemId.isSome)).foldl
      (hopOutStep db hopId) acc
  (db.citations.filter (fun c => c.dstItemId == some hopId)).foldl
    (hopInStep db hopId) accOut

/-- get_citation_subgraph (citations.py lines 328-427).  A center id with no
stored item returns the empty result with a null center (line 342); the
function never raises.  At depth ≥ 2 the hop set is the ids collected at
depth 1 minus the center (every collected id is in seen_items by
construction); Python iterates that set in an implementation-defined order,
modelled here as first-occurrence order. -/
def getCitationSubgraph (db : DB) (itemId : Nat) (depth : Nat) : Subgraph :=
  match itemById db itemId with
  | none => { center := none, cites := [], citedBy := [], unresolvedRefs := [], edges := [] }
  | some center =>
    let acc0 : SubAcc := ⟨[], [], [], [], [itemId]⟩
    let acc1 := (db.citations.filter (fun c => c.srcItemId == itemId)).foldl
      (subOutStep db itemId) acc0
    let acc2 := (db.citations.filter (fun c => c.dstItemId == some itemId)).foldl
      (subInStep db itemId) acc1
    let acc3 :=
      if 2 ≤ depth then
        ((((acc2.cites ++ acc2.citedBy).map (fun i => i.id)).filter
          (fun i => !(i == itemId))).dedup).foldl (hopStep db) acc2
      else acc2
    { center := some (itemInfoOf center)
      cites := acc3.cites
      citedBy := acc3.citedBy
      unresolvedRefs := acc3.unresolved
      edges := acc3.edges }

/-- State with an already-merged source: item 1 was merged into item 2, and a
second merge of 1 into the active item 3 is attempted. -/
def alreadyMergedSrcDb : DB :=
  { items := [⟨1, some "A", none, none, none, "merged", some 2⟩,
              ⟨2, some "B", none, none, none, "active", none⟩,
              ⟨3, some "C", none, none, none, "active", none⟩]
    itemIds := [], itemTags := [⟨1, 7, some "manual"⟩]
    collectionItems := [], notes := [], citations := [] }

/-- State with an already-merged destination: item 2 was merged into item 3,
and item 1 is now merged into item 2. -/
def mergedDstDb : DB :=
  { items := [⟨1, some "A", none, none, none, "active", none⟩,
              ⟨2, some "B", none, none, none, "merged", some 3⟩,
              ⟨3, some "C", none, none, none, "active", none⟩]
    itemIds := [], itemTags := [], collectionItems := [], notes := [], citations := [] }

/-- State where the source owns an external identifier the destination does
not have. -/
def extIdDb : DB :=
  { items := [⟨1, some "A", none, none, none, "active", none⟩,
              ⟨2, some "B", none, none, none, "active", none⟩]
    itemIds := [⟨1, "doi", "10.1/x"⟩]
    itemTags := [], collectionItems := [], notes := [], citations := [] }

/-- State where the source cites the destination. -/
def mutualCiteDb : DB :=
  { items := [⟨1, some "A", none, none, none, "active", none⟩,
              ⟨2, some "B", none, none, none, "active", none⟩]
    itemIds := [], itemTags := [], collectionItems := [], notes := []
    citations := [⟨1, some 2, some "x", none, some "pdf", some "h"⟩] }

/-- State where source and destination share tag 7. -/
def sharedTagDb : DB :=
  { items := [⟨1, some "A", none, none, none, "active", none⟩,
              ⟨2, some "B", none, none, none, "active", none⟩]
    itemIds := [], itemTags := [⟨1, 7, none⟩, ⟨2, 7, none⟩]
    collectionItems := [], notes := [], citations := [] }

/-- Document whose primary key matches the edge below. -/
def targetItem : Item :=
  ⟨5, some "Target paper title", none, some "key5", none, "active", none⟩

/-- Document that would win the fuzzy title fallback for the edge below. -/
def fuzzyItem : Item :=
  ⟨9, some "Alpha beta gamma delta epsilon zeta eta", none, some "key9", none, "active", none⟩

/-- State with both a primary-key match and a fuzzy-title winner. -/
def priorityDb : DB :=
  { items := [targetItem, fuzzyItem]
    itemIds := [], itemTags := [], collectionItems := [], notes := [], citations := [] }

/-- Unresolved edge whose best-guess key is targetItem's primary key while
its title guess is one word away from fuzzyItem's title. -/
def priorityCit : Citation :=
  ⟨1, none, some "Alpha beta gamma delta epsilon zeta eta theta. key5", some "key5",
    some "pdf", none⟩

/-- Identifiers parsed from priorityCit's mention: only a title guess. -/
def priorityIds : ParsedIds :=
  ⟨none, none, none, none, some "Alpha beta gamma delta epsilon zeta eta theta"⟩

/-- State with one unresolved edge resolvable by primary key. -/
def bibResolveDb : DB :=
  { items := [⟨2, some "T", none, some "k2", none, "active", none⟩]
    itemIds := [], itemTags := [], collectionItems := [], notes := []
    citations := [⟨1, none, some "see k2", some "k2", some "bibtex", none⟩] }

/-- Candidate document for the fuzzy-threshold witness. -/
def fuzzyWitnessItem : Item :=
  ⟨9, some "x", none, none, none, "active", none⟩

/-- C1: merge_items performs no status check on the source: merging an
already-merged source is not rejected — it is applied again, moving the
source's tag onto the new destination and re-pointing the tombstone.  This
contradicts the claimed explicit rejection with no mutation. -/
theorem merge_already_merged_source_applies :
    (mergeItems alreadyMergedSrcDb 1 3 false).1 = MergeResult.applied 1 3 ⟨1, 0, 0, 0, 0, 0⟩ ∧
      itemById (mergeItems alreadyMergedSrcDb 1 3 false).2 1 =
        some ⟨1, some "A", none, none, none, "merged", some 3⟩ ∧
      (mergeItems alreadyMergedSrcDb 1 3 false).2.itemTags =
        [⟨1, 7, some "manual"⟩, ⟨3, 7, some "manual"⟩] := by
  decide

/-- C3: merge_items performs no status check on the destination either:
merging into an already-merged item is applied, leaving item 1's merge
pointer aimed at item 2 whose status is "merged", not "active". -/
theorem merge_into_merged_destination_applies :
    (mergeItems mergedDstDb 1 2 false).1 = MergeResult.applied 1 2 ⟨0, 0, 0, 0, 0, 0⟩ ∧
      itemById (mergeItems mergedDstDb 1 2 false).2 1 =
        some ⟨1, some "A", none, none, none, "merged", some 2⟩ ∧
      (itemById (mergeItems mergedDstDb 1 2 false).2 2).map (fun it => it.status) =
        some "merged" := by
  decide

/-- C4: the apply branch of merge_items inserts a fresh destination row for
each source identifier pair but never deletes the source's row, so after the
merge the pair ("doi", "10.1/x") is attached to both item 1 and item 2 — the
global uniqueness of (id_type, id_value) pairs demanded by the schema's own
UniqueConstraint is violated (at the database level the closing flush raises
IntegrityError instead of completing the move). -/
theorem merge_duplicates_external_id_pair :
    extPairsUnique extIdDb.itemIds ∧
      (mergeItems extIdDb 1 2 false).2.itemIds =
        [⟨1, "doi", "10.1/x"⟩, ⟨2, "doi", "10.1/x"⟩] ∧
      ¬ extPairsUnique (mergeItems extIdDb 1 2 false).2.itemIds := by
  decide

/-- C2 counterexample: merging item 1 into item 2 while the edge 1 → 2 exists
re-points that edge's source to 2, producing the self-citation 2 → 2; the
claim that an applied merge never makes source and destination equal is
false. -/
theorem merge_creates_self_citation :
    (mergeItems mutualCiteDb 1 2 false).2.citations =
        [⟨2, some 2, some "x", none, some "pdf", some "h"⟩] ∧
      ¬ noSelfCite (⟨2, some 2, some "x", none, some "pdf", some "h"⟩ : Citation) := by
  decide

/-- C9 counterexample: with tag 7 on both items, the dry run reports one tag
as "would move" (it counts every source tag link), while the applied merge
moves zero tags (duplicates are skipped) — so the dry-run counts are not the
counts of what would move. -/
theorem dry_run_overcounts :
    (mergeItems sharedTagDb 1 2 true).1 = MergeResult.dryRunReport 1 2 ⟨1, 0, 0, 0, 0, 0⟩ ∧
      (mergeItems sharedTagDb 1 2 false).1 = MergeResult.applied 1 2 ⟨0, 0, 0, 0, 0, 0⟩ := by
  decide

/-- C9 (amended): for every pair of existing documents, the dry run returns
the sizes of the source's tag, collection, note, outgoing-citation,
incoming-citation and external-identifier collections (an upper bound on
what an applied merge would move) and returns the database completely
unchanged — the dry run writes nothing. -/
theorem dry_run_is_noop (db : DB) (srcId dstId : Nat)
    (hs : (itemById db srcId).isSome) (hd : (itemById db dstId).isSome) :
    mergeItems db srcId dstId true =
      (MergeResult.dryRunReport srcId dstId (mergeDryRunCounts db srcId), db) := by
  obtain ⟨s, hs'⟩ := Option.isSome_iff_exists.mp hs
  obtain ⟨d, hd'⟩ := Option.isSome_iff_exists.mp hd
  unfold mergeItems
  rw [hs', hd']
  rfl

/-- C9 witness: the dry run on a concrete state returns the source's counts
and the state unchanged. -/
theorem dry_run_is_noop_witness :
    mergeItems sharedTagDb 1 2 true =
      (MergeResult.dryRunReport 1 2 (mergeDryRunCounts sharedTagDb 1), sharedTagDb) :=
  dry_run_is_noop sharedTagDb 1 2 (by decide) (by decide)

/-- One fuzzy step never lowers the running best similarity. -/
theorem fuzzyStep_le (guess : String) (acc : ℚ × Option Item) (p : String × Item) :
    acc.1 ≤ (fuzzyStep guess acc p).1 := by
  unfold fuzzyStep
  by_cases h : acc.1 < titleSimilarity guess p.1
  · simp only [h, if_true]
    exact le_of_lt h
  · simp only [h, if_false]
    exact le_refl _

/-- The fuzzy fold never lowers the running best similarity. -/
theorem fuzzyFold_le (guess : String) :
    ∀ (idx : List (String × Item)) (acc : ℚ × Option Item),
      acc.1 ≤ (idx.foldl (fuzzyStep guess) acc).1 := by
  intro idx
  induction idx with
  | nil => intro acc; exact le_refl _
  | cons p rest ih =>
    intro acc
    calc acc.1 ≤ (fuzzyStep guess acc p).1 := fuzzyStep_le guess acc p
      _ ≤ ((p :: rest).foldl (fuzzyStep guess) acc).1 := by
          rw [List.foldl_cons]; exact ih (fuzzyStep guess acc p)

/-- The final best similarity dominates the similarity of every entry of the
index. -/
theorem fuzzyFold_mem (guess : String) :
    ∀ (idx : List (String × Item)) (acc : ℚ × Option Item), ∀ p ∈ idx,
      titleSimilarity guess p.1 ≤ (idx.foldl (fuzzyStep guess) acc).1 := by
  intro idx
  induction idx with
  | nil => intro acc p hp; cases hp
  | cons q rest ih =>
    intro acc p hp
    rw [List.foldl_cons]
    rcases List.mem_cons.mp hp with h | h
    · subst h
      have h1 : titleSimilarity guess p.1 ≤ (fuzzyStep guess acc p).1 := by
        unfold fuzzyStep
        by_cases hlt : acc.1 < titleSimilarity guess p.1
        · simp only [hlt, if_true]
          exact le_refl _
        · simp only [hlt, if_false]
          exact le_of_not_lt hlt
      exact le_trans h1 (fuzzyFold_le guess rest (fuzzyStep guess acc p))
    · exact ih (fuzzyStep guess acc q) p h

/-- The fuzzy fold either returns its accumulator unchanged or returns the
similarity and item of some entry of the index. -/
theorem fuzzyFold_src (guess : String) :
    ∀ (idx : List (String × Item)) (acc : ℚ × Option Item),
      idx.foldl (fuzzyStep guess) acc = acc ∨
        ∃ t it, (t, it) ∈ idx ∧ (idx.foldl (fuzzyStep guess) acc).2 = some it ∧
          (idx.foldl (fuzzyStep guess) acc).1 = titleSimilarity guess t := by
  intro idx
  induction idx with
  | nil => intro acc; exact Or.inl rfl
  | cons q rest ih =>
    intro acc
    rw [List.foldl_cons]
    rcases ih (fuzzyStep guess acc q) with h | h
    · rw [h]
      by_cases hlt : acc.1 < titleSimilarity guess q.1
      · refine Or.inr ⟨q.1, q.2, List.mem_cons_self _ _, ?_, ?_⟩ <;>
          simp [fuzzyStep, hlt]
      · left
        unfold fuzzyStep
        simp [hlt]
    · obtain ⟨t, it, hmem, h2, h1⟩ := h
      exact Or.inr ⟨t, it, List.mem_cons_of_mem _ hmem, h2, h1⟩

/-- C5: soundness and completeness of the fuzzy title fallback.  Whenever the
fallback resolves an edge, the returned document is indexed under a title
whose word-set Jaccard similarity with the guess is strictly greater than
0.85 and is maximal over the whole index — so a best candidate at exactly
0.85 never resolves; conversely, whenever some indexed title exceeds 0.85
the fallback does resolve, so a unique best candidate at 0.86 resolves the
edge to that candidate. -/
theorem fuzzy_threshold_strict (guess : String) (idx : List (String × Item)) :
    (∀ it, fuzzyResolve guess idx = some it →
      ∃ t, (t, it) ∈ idx ∧ Rat.divInt 17 20 < titleSimilarity guess t ∧
        ∀ p ∈ idx, titleSimilarity guess p.1 ≤ titleSimilarity guess t) ∧
    ((∃ p ∈ idx, Rat.divInt 17 20 < titleSimilarity guess p.1) →
      (fuzzyResolve guess idx).isSome = true) := by
  have hconv : idx.foldl (fuzzyStep guess) (0, none) = fuzzyScan guess idx := rfl
  have hmemle : ∀ p ∈ idx, titleSimilarity guess p.1 ≤ (fuzzyScan guess idx).1 := by
    intro p hp
    rw [← hconv]
    exact fuzzyFold_mem guess idx (0, none) p hp
  have hsrc : fuzzyScan guess idx = ((0 : ℚ), (none : Option Item)) ∨
      ∃ t it, (t, it) ∈ idx ∧ (fuzzyScan guess idx).2 = some it ∧
        (fuzzyScan guess idx).1 = titleSimilarity guess t := by
    rw [← hconv]
    exact fuzzyFold_src guess idx (0, none)
  constructor
  · intro it h
    unfold fuzzyResolve at h
    by_cases hc : Rat.divInt 17 20 < (fuzzyScan guess idx).1
    · rw [if_pos hc] at h
      rcases hsrc with hs | hs
      · rw [hs] at h
        cases h
      · obtain ⟨t, it', hmem, h2, h1⟩ := hs
        rw [h2] at h
        injection h with h'
        subst h'
        refine ⟨t, hmem, ?_, ?_⟩
        · rw [h1] at hc
          exact hc
        · intro p hp
          have := hmemle p hp
          rw [h1] at this
          exact this
    · rw [if_neg hc] at h
      cases h
  · rintro ⟨p, hp, hgt⟩
    have hge : Rat.divInt 17 20 < (fuzzyScan guess idx).1 :=
      lt_of_lt_of_le hgt (hmemle p hp)
    unfold fuzzyResolve
    rw [if_pos hge]
    rcases hsrc with hs | hs
    · exfalso
      have hge' : Rat.divInt 17 20 < (0 : ℚ) := by rw [hs] at hge; exact hge
      have h0 : (0 : ℚ) ≤ Rat.divInt 17 20 := by
        rw [Rat.divInt_eq_div]
        norm_num
      exact absurd hge' (not_lt.mpr h0)
    · obtain ⟨t, it, _, h2, _⟩ := hs
      rw [h2]
      rfl

/-- C5 witness: with guess words a..g and an indexed title sharing six of its
seven words (similarity 6/7 ≈ 0.857 > 0.85), the fallback resolves. -/
theorem fuzzy_threshold_strict_witness :
    (fuzzyResolve "a b c d e f g" [("a b c d e f", fuzzyWitnessItem)]).isSome = true :=
  (fuzzy_threshold_strict "a b c d e f g" [("a b c d e f", fuzzyWitnessItem)]).2
    ⟨("a b c d e f", fuzzyWitnessItem), by decide, by decide⟩

/-- C6: the strategy chain stops at its first success, and the primary-key
strategy is first: whenever the edge's best-guess key matches a document's
bibtex key, that document is the candidate with method "bibtex_key",
whatever the parsed identifiers and the title index would say; if it is not
the edge's own source, the edge resolves to it. -/
theorem resolution_priority_bibtex_first (db : DB) (cit : Citation) (ids : ParsedIds)
    (k : String) (it : Item) (hk : cit.dstKey = some k) (hne : k ≠ "")
    (hfind : findByBibtex db k = some it) :
    resolveCandidate db cit ids = some (it, "bibtex_key") ∧
      (it.id ≠ cit.srcItemId → resolveDst db cit ids = some it.id) := by
  have h1 : resolveCandidate db cit ids = some (it, "bibtex_key") := by
    unfold resolveCandidate
    rw [hk]
    simp [hne, hfind, Option.orElse]
  refine ⟨h1, fun hne2 => ?_⟩
  unfold resolveDst
  rw [h1]
  simp [hne2]

/-- C6 witness: the edge's key "key5" matches targetItem's primary key, so
the edge resolves to targetItem via the primary-key strategy even though
fuzzyItem wins the fuzzy title fallback (similarity 7/8 > 0.85) on the same
state. -/
theorem resolution_priority_bibtex_first_witness :
    resolveCandidate priorityDb priorityCit priorityIds = some (targetItem, "bibtex_key") ∧
      fuzzyResolve
          (normTitle (dropTrailingDots "Alpha beta gamma delta epsilon zeta eta theta"))
          (titleIndex priorityDb) = some fuzzyItem :=
  ⟨(resolution_priority_bibtex_first priorityDb priorityCit priorityIds "key5" targetItem
      (by decide) (by decide) (by decide)).1,
    by decide⟩

/-- A destination produced by the self-guarded resolution of one edge always
differs from the edge's source. -/
theorem resolveDst_ne (db : DB) (cit : Citation) (ids : ParsedIds) (d : Nat)
    (h : resolveDst db cit ids = some d) : d ≠ cit.srcItemId := by
  unfold resolveDst at h
  split at h
  · split at h
    · cases h
    · rename_i hne3
      injection h with h'
      rw [← h']
      exact hne3
  · cases h

/-- C2 (amended): the resolution sweep never creates a self-citation — the
resolver leaves an edge unresolved when the found candidate equals the
edge's own source — so if no edge is a self-citation before the sweep, none
is after it.  (An applied merge, by contrast, can create self-citations: see
the counterexample on mutualCiteDb.) -/
theorem resolve_pass_no_self_citation (db : DB) (parse : String → ParsedIds)
    (h : ∀ c ∈ db.citations, noSelfCite c) :
    ∀ c ∈ (resolveCitationsPass db parse).citations, noSelfCite c := by
  intro c hc
  simp only [resolveCitationsPass, List.mem_map] at hc
  obtain ⟨a, ha, rfl⟩ := hc
  by_cases hd : a.dstItemId = none
  · rw [if_pos hd]
    unfold resolveStep
    cases hr : resolveDst db a (parsedFor parse a) with
    | none => unfold noSelfCite; rw [hd]; exact Option.noConfusion
    | some d =>
      have hdd : d ≠ a.srcItemId := resolveDst_ne db a (parsedFor parse a) d hr
      unfold noSelfCite
      simp only []
      intro hcontra
      exact hdd (Option.some.inj hcontra)
  · rw [if_neg hd]
    exact h a ha

/-- C2 witness: on a concrete state the sweep resolves the edge by primary
key and the resulting edge is not a self-citation. -/
theorem resolve_pass_no_self_citation_witness :
    noSelfCite (⟨1, some 2, some "see k2", some "k2", some "bibtex", none⟩ : Citation) :=
  resolve_pass_no_self_citation bibResolveDb (fun _ => emptyIds) (by decide) _ (by decide)

/-- Unfolding equation of the extraction loop when the head entry's hash is
already known. -/
theorem extractLoop_cons_mem (digest : String → String) (src : Nat) (e0 : RefEntry)
    (rest : List RefEntry) (ex : List String) (h0 : citeHash digest e0.raw ∈ ex) :
    extractLoop digest src ex (e0 :: rest) = extractLoop digest src ex rest := by
  simp only [extractLoop]
  rw [if_pos h0]

/-- Unfolding equation of the extraction loop when the head entry's hash is
new. -/
theorem extractLoop_cons_not_mem (digest : String → String) (src : Nat) (e0 : RefEntry)
    (rest : List RefEntry) (ex : List String) (h0 : citeHash digest e0.raw ∉ ex) :
    extractLoop digest src ex (e0 :: rest) =
      (⟨src, none, some (String.mk (e0.raw.toList.take 500)), entryDstKey e0,
        some "pdf", some (citeHash digest e0.raw)⟩ : Citation) ::
        extractLoop digest src (citeHash digest e0.raw :: ex) rest := by
  simp only [extractLoop]
  rw [if_neg h0]

/-- Hashes of a cons cell whose head carries a hash. -/
theorem filterMap_hash_cons (c : Citation) (l : List Citation) (h : String)
    (hc : c.rawCiteHash = some h) :
    (c :: l).filterMap (fun d => d.rawCiteHash) =
      h :: l.filterMap (fun d => d.rawCiteHash) := by
  simp [List.filterMap_cons, hc]

/-- existingHashes of a cons cell owned by the source. -/
theorem existingHashes_cons_src (c : Citation) (l : List Citation) (src : Nat)
    (hsrc : c.srcItemId = src) (h : String) (hh : c.rawCiteHash = some h) :
    existingHashes (c :: l) src = h :: existingHashes l src := by
  unfold existingHashes
  simp [List.filterMap_cons, hsrc, hh]

/-- When every entry's hash is already known, the extraction loop creates no
edge at all. -/
theorem extractLoop_nil_of_covered (digest : String → String) (src : Nat) :
    ∀ (entries : List RefEntry) (ex : List String),
      (∀ e ∈ entries, citeHash digest e.raw ∈ ex) →
        extractLoop digest src ex entries = [] := by
  intro entries
  induction entries with
  | nil => intro ex _; rfl
  | cons e rest ih =>
    intro ex h
    unfold extractLoop
    rw [if_pos (h e (List.mem_cons_self _ _))]
    exact ih ex (fun e' he' => h e' (List.mem_cons_of_mem _ he'))

/-- After one run of the extraction loop, every entry's hash is either in the
starting hash set or among the hashes of the created edges. -/
theorem extractLoop_covers (digest : String → String) (src : Nat) :
    ∀ (entries : List RefEntry) (ex : List String), ∀ e ∈ entries,
      citeHash digest e.raw ∈ ex ∨
        citeHash digest e.raw ∈
          (extractLoop digest src ex entries).filterMap (fun c => c.rawCiteHash) := by
  intro entries
  induction entries with
  | nil => intro ex e he; cases he
  | cons e0 rest ih =>
    intro ex e he
    by_cases h0 : citeHash digest e0.raw ∈ ex
    · rw [extractLoop_cons_mem digest src e0 rest ex h0]
      rcases List.mem_cons.mp he with rfl | hmem
      · exact Or.inl h0
      · exact ih ex e hmem
    · have hcons : (extractLoop digest src ex (e0 :: rest)).filterMap
          (fun c => c.rawCiteHash) =
            citeHash digest e0.raw ::
              (extractLoop digest src (citeHash digest e0.raw :: ex) rest).filterMap
                (fun c => c.rawCiteHash) := by
        rw [extractLoop_cons_not_mem digest src e0 rest ex h0]
        exact filterMap_hash_cons _ _ _ rfl
      rcases List.mem_cons.mp he with rfl | hmem
      · rw [hcons]
        exact Or.inr (List.mem_cons_self _ _)
      · rcases ih (citeHash digest e0.raw :: ex) e hmem with hin | hin
        · rcases List.mem_cons.mp hin with heq | hin2
          · rw [hcons, heq]
            exact Or.inr (List.mem_cons_self _ _)
          · exact Or.inl hin2
        · rw [hcons]
          exact Or.inr (List.mem_cons_of_mem _ hin)

/-- The hashes of the edges created by one extraction run are pairwise
distinct and disjoint from the starting hash set. -/
theorem extractLoop_nodup (digest : String → String) (src : Nat) :
    ∀ (entries : List RefEntry) (ex : List String),
      ((extractLoop digest src ex entries).filterMap (fun c => c.rawCiteHash)).Nodup ∧
        ∀ h ∈ (extractLoop digest src ex entries).filterMap (fun c => c.rawCiteHash),
          h ∉ ex := by
  intro entries
  induction entries with
  | nil =>
    intro ex
    exact ⟨List.nodup_nil, fun h hh => absurd hh (List.not_mem_nil h)⟩
  | cons e0 rest ih =>
    intro ex
    by_cases h0 : citeHash digest e0.raw ∈ ex
    · rw [extractLoop_cons_mem digest src e0 rest ex h0]
      exact ih ex
    · have hcons : (extractLoop digest src ex (e0 :: rest)).filterMap
          (fun c => c.rawCiteHash) =
            citeHash digest e0.raw ::
              (extractLoop digest src (citeHash digest e0.raw :: ex) rest).filterMap
                (fun c => c.rawCiteHash) := by
        rw [extractLoop_cons_not_mem digest src e0 rest ex h0]
        exact filterMap_hash_cons _ _ _ rfl
      obtain ⟨ihn, ihd⟩ := ih (citeHash digest e0.raw :: ex)
      rw [hcons]
      constructor
      · refine List.nodup_cons.mpr ⟨?_, ihn⟩
        intro hmem
        exact ihd _ hmem (List.mem_cons_self _ _)
      · intro h hh
        rcases List.mem_cons.mp hh with rfl | hh2
        · exact h0
        · intro hex
          exact ihd h hh2 (List.mem_cons_of_mem _ hex)

/-- existingHashes distributes over table append. -/
theorem existingHashes_append (cits1 cits2 : List Citation) (src : Nat) :
    existingHashes (cits1 ++ cits2) src =
      existingHashes cits1 src ++ existingHashes cits2 src := by
  unfold existingHashes
  exact List.filterMap_append _ _ _

/-- Every edge created by the extraction loop belongs to the source, so its
hash is seen by existingHashes. -/
theorem existingHashes_extractLoop (digest : String → String) (src : Nat) :
    ∀ (entries : List RefEntry) (ex : List String),
      existingHashes (extractLoop digest src ex entries) src =
        (extractLoop digest src ex entries).filterMap (fun c => c.rawCiteHash) := by
  intro entries
  induction entries with
  | nil => intro ex; rfl
  | cons e0 rest ih =>
    intro ex
    by_cases h0 : citeHash digest e0.raw ∈ ex
    · rw [extractLoop_cons_mem digest src e0 rest ex h0]
      exact ih ex
    · rw [extractLoop_cons_not_mem digest src e0 rest ex h0,
        existingHashes_cons_src _ _ _ rfl _ rfl,
        filterMap_hash_cons _ _ _ rfl,
        ih (citeHash digest e0.raw :: ex)]

/-- C7: re-running reference extraction over the unchanged entry list of a
source document creates zero new edges — the table is returned unchanged
with a count of 0 — and, provided the source's stored hashes were pairwise
distinct before the first run, they remain pairwise distinct afterwards: no
two stored edges of the same source share a normalized-mention hash. -/
theorem extraction_idempotent_and_hash_unique (digest : String → String)
    (cits : List Citation) (src : Nat) (entries : List RefEntry)
    (hnd : (existingHashes cits src).Nodup) :
    extractForItem digest (extractForItem digest cits src entries).1 src entries =
        ((extractForItem digest cits src entries).1, 0) ∧
      (existingHashes (extractForItem digest cits src entries).1 src).Nodup := by
  have hfst : (extractForItem digest cits src entries).1 =
      cits ++ extractLoop digest src (existingHashes cits src) entries := rfl
  have hex2 : existingHashes (extractForItem digest cits src entries).1 src =
      existingHashes cits src ++
        (extractLoop digest src (existingHashes cits src) entries).filterMap
          (fun c => c.rawCiteHash) := by
    rw [hfst, existingHashes_append, existingHashes_extractLoop]
  constructor
  · have hcover : ∀ e ∈ entries,
        citeHash digest e.raw ∈
          existingHashes (extractForItem digest cits src entries).1 src := by
      intro e he
      rw [hex2]
      rcases extractLoop_covers digest src entries (existingHashes cits src) e he with
        h | h
      · exact List.mem_append_left _ h
      · exact List.mem_append_right _ h
    have h2 : extractForItem digest (extractForItem digest cits src entries).1 src entries =
        ((extractForItem digest cits src entries).1 ++
            extractLoop digest src
              (existingHashes (extractForItem digest cits src entries).1 src) entries,
          (extractLoop digest src
            (existingHashes (extractForItem digest cits src entries).1 src) entries).length) :=
      rfl
    rw [h2, extractLoop_nil_of_covered digest src entries _ hcover]
    simp
  · rw [hex2]
    obtain ⟨hn, hd⟩ := extractLoop_nodup digest src entries (existingHashes cits src)
    refine List.Nodup.append hnd hn ?_
    exact List.Disjoint.symm (fun a ha => hd a ha)

/-- C7 witness: on an empty table, two syntactically different mentions of
the same reference (case and whitespace variants) create a single edge, and
a second run over the same entries creates zero new edges. -/
theorem extraction_idempotent_witness :
    extractForItem (fun s => s) (extractForItem (fun s => s) [] 4 sampleEntries).1 4
        sampleEntries = ((extractForItem (fun s => s) [] 4 sampleEntries).1, 0) ∧
      (existingHashes (extractForItem (fun s => s) [] 4 sampleEntries).1 4).Nodup :=
  extraction_idempotent_and_hash_unique (fun s => s) [] 4 sampleEntries (by decide)

set_option maxRecDepth 8000 in
/-- C8 counterexample, both directions of the claimed "exactly when".
First text: the tail "x [2] B.C" contains the bracketed numeral [2], which
the claim says must be accepted, yet the code's test looks for the literal
"[1]" (or a word-bounded "1." + capital) and rejects it — the entry list is
empty.  Second text: the tail "z 1. Apple pies are good." has no bracketed
numeral and no line-initial "1. ", so the claim says it is not accepted and
the result is empty, yet the code's \b1\. test matches mid-line and the
extractor returns a non-empty entry list. -/
theorem tail_fallback_counterexample :
    (headingFound c8TextBracket2 = false ∧
        specTailAccepts (tailOf c8TextBracket2) = true ∧
        codeTailAccepts (tailOf c8TextBracket2) = false ∧
        refChunks c8TextBracket2 = []) ∧
      (headingFound c8TextMidline = false ∧
        specTailAccepts (tailOf c8TextMidline) = false ∧
        codeTailAccepts (tailOf c8TextMidline) = true ∧
        refChunks c8TextMidline = ["z 1. Apple pies are good."]) := by
  decide

/-- C8 (amended): when the references-heading pattern does not match,
extraction scans only the final 20% of the text and accepts that tail as
the reference section exactly when the code's tail test fires — the tail
contains the literal substring "[1]", or a word-bounded "1." followed by
whitespace and a capital letter, anywhere in the tail (not only at line
start); when the tail is not accepted the entry list is empty — a skip, not
an error. -/
theorem tail_fallback_amended (text : String) (h : headingFound text = false) :
    rawSectionOf text = (if codeTailAccepts (tailOf text) then tailOf text else "") ∧
      (codeTailAccepts (tailOf text) = false → refChunks text = []) := by
  have hnone : refsHeadingEnd text = none := by
    cases hE : refsHeadingEnd text with
    | none => rfl
    | some e =>
      unfold headingFound at h
      rw [hE] at h
      simp at h
  have hraw : rawSectionOf text = (if codeTailAccepts (tailOf text) then tailOf text else "") := by
    unfold rawSectionOf
    rw [hnone]
  refine ⟨hraw, fun hacc => ?_⟩
  have hraw0 : rawSectionOf text = "" := by
    rw [hraw, hacc]
    rfl
  unfold refChunks
  rw [hraw0]
  simp

/-- C8 witness: the amended theorem applied to the first concrete text — the
tail is rejected by the code's test and the chunk list is empty. -/
theorem tail_fallback_amended_witness : refChunks c8TextBracket2 = [] :=
  (tail_fallback_amended c8TextBracket2 (by decide)).2 (by decide)

/-- C10: for every id that does not resolve to a stored document and every
depth, get_citation_subgraph returns normally with a null center and empty
cites, cited_by, unresolved_refs and edges lists. -/
theorem subgraph_missing_center_empty (db : DB) (i depth : Nat)
    (h : itemById db i = none) :
    getCitationSubgraph db i depth = ⟨none, [], [], [], []⟩ := by
  unfold getCitationSubgraph
  rw [h]

/-- C10 witness: id 5 is not stored in the concrete state. -/
theorem subgraph_missing_center_empty_witness :
    getCitationSubgraph mutualCiteDb 5 2 = ⟨none, [], [], [], []⟩ :=
  subgraph_missing_center_empty mutualCiteDb 5 2 (by decide)

end ResearchIntelligence
